import Mathlib

/-!
Verification of the protected-memory primitive of this repository
(`base/memory/protected_memory`), checked against its unit tests in
`base/memory/protected_memory_unittest.cc`.

The test-side bit-coverage logic (`VerifyByteSequenceIsNotWriteable`,
`VerifyInstanceIsNotWriteable`) is embedded directly from the source.
The container, guard and initializer semantics live in
`base/memory/protected_memory.h`, which is not part of the available
sources; those are modelled from the specification (see the doc comments
starting with `Modelled from the spec:`).
-/

/-- CHAR_BIT on the platforms the test targets. -/
def charBit : Nat := 8

/-- The modulus of `size_t` arithmetic (64-bit platforms). -/
def sizeTModulus : Nat := 2 ^ 64

/-- The loop bound `number_of_bits - 1` of `VerifyByteSequenceIsNotWriteable`,
computed in `size_t` (unsigned, wrapping) arithmetic: for `n = 0` it wraps to
`2^64 - 1` instead of being negative. -/
def loopBoundSizeT (n : Nat) : Nat :=
  (n + (sizeTModulus - 1)) % sizeTModulus

/-- The bit indices visited by the interior sampling loop of
`VerifyByteSequenceIsNotWriteable`,
`for (bit_index = bit_increment; bit_index < bound; bit_index += bit_increment)`,
in the regime where the `size_t` increment never wraps
(`bound + b <= 2^64`, which covers every call made through
`VerifyInstanceIsNotWriteable` with its default increment 3). This version
steps with unbounded addition; the faithful wrapping loop is
`interiorBitsFromSizeT` below, and `interiorBitsFromSizeT_eq_interiorBitsFrom`
proves the two agree exactly in the no-wrap regime. For `b = 0` the C loop
would not terminate; this version returns `[]` in that case. -/
def interiorBitsFrom (bound b i : Nat) : List Nat :=
  if h : 0 < b ∧ i < bound then i :: interiorBitsFrom bound b (i + b) else []
termination_by bound - i
decreasing_by
  simp_wf
  omega

/-- One execution of `bit_index += bit_increment` in `size_t` arithmetic:
the sum wraps modulo `2^64`. -/
def sizeTStep (i b : Nat) : Nat := (i + b) % sizeTModulus

/-- The faithful model of the interior sampling loop, stepping with the
wrapping `size_t` increment `sizeTStep` and indexed by fuel bounding the
number of loop-body executions: `some l` means the loop exits within `fuel`
iterations having checked exactly the indices in `l`; `none` means the loop is
still running after `fuel` iterations — in particular a divergent run (one
whose wrapped index cycles strictly below `bound` forever) is `none` for every
fuel. -/
def interiorBitsFromSizeT : Nat → Nat → Nat → Nat → Option (List Nat)
  | 0, bound, _, i => if i < bound then none else some []
  | fuel + 1, bound, b, i =>
    if i < bound then
      match interiorBitsFromSizeT fuel bound b (sizeTStep i b) with
      | none => none
      | some l => some (i :: l)
    else some []

/-- Divergence of the interior sampling loop started at index `i`: no amount
of fuel makes the wrapped loop exit. -/
def interiorLoopDivergesSizeT (bound b i : Nat) : Prop :=
  ∀ fuel, interiorBitsFromSizeT fuel bound b i = none

/-- The full sequence of bit indices `VerifyByteSequenceIsNotWriteable` passes
to `check_bit_not_writeable`: bit `0` when `number_of_bits >= 1`, bit
`number_of_bits - 1` when `number_of_bits >= 2`, then the interior loop
starting at `bit_increment` with strict bound `number_of_bits - 1`. -/
def verifyByteSequenceCheckedBits (n b : Nat) : List Nat :=
  (if 1 ≤ n then [0] else []) ++
    (if 2 ≤ n then [loopBoundSizeT n] else []) ++
    interiorBitsFrom (loopBoundSizeT n) b b

/-- The byte-level effect of `byte_pattern[byte_index] ^= (0x1 << local_bit_index)`
with `byte_index = bit_index / CHAR_BIT` and `local_bit_index = bit_index % CHAR_BIT`. -/
def flipBit (bytes : List Nat) (bitIndex : Nat) : List Nat :=
  bytes.set (bitIndex / charBit)
    ((bytes.getD (bitIndex / charBit) 0) ^^^ (1 <<< (bitIndex % charBit)))

theorem sizeTModulus_eq : sizeTModulus = 18446744073709551616 := by
  norm_num [sizeTModulus]

theorem loopBoundSizeT_eq_sub_one {n : Nat} (h1 : 1 ≤ n) (h2 : n < sizeTModulus) :
    loopBoundSizeT n = n - 1 := by
  have hm := sizeTModulus_eq
  unfold loopBoundSizeT
  rw [hm] at h2 ⊢
  omega

theorem loopBoundSizeT_zero : loopBoundSizeT 0 = sizeTModulus - 1 := by
  have hm := sizeTModulus_eq
  unfold loopBoundSizeT
  rw [hm]

theorem mem_interiorBitsFrom {b : Nat} (hb : 0 < b) (bound i j : Nat) :
    j ∈ interiorBitsFrom bound b i ↔ ∃ k, j = i + k * b ∧ j < bound := by
  rw [interiorBitsFrom]
  split
  · rename_i h
    rw [List.mem_cons, mem_interiorBitsFrom hb bound (i + b) j]
    constructor
    · rintro (rfl | ⟨k, rfl, hlt⟩)
      · exact ⟨0, by omega, h.2⟩
      · refine ⟨k + 1, ?_, hlt⟩
        have hs : (k + 1) * b = k * b + b := Nat.succ_mul k b
        omega
    · rintro ⟨k, rfl, hlt⟩
      cases k with
      | zero => exact Or.inl (by omega)
      | succ k' =>
        refine Or.inr ⟨k', ?_, hlt⟩
        have hs : (k' + 1) * b = k' * b + b := Nat.succ_mul k' b
        omega
  · rename_i h
    simp only [List.not_mem_nil, false_iff, not_exists]
    rintro k ⟨rfl, hlt⟩
    have : bound ≤ i := by omega
    have : i ≤ i + k * b := Nat.le_add_right _ _
    omega
termination_by bound - i
decreasing_by
  simp_wf
  omega

theorem interiorBitsFrom_nodup {b : Nat} (hb : 0 < b) (bound i : Nat) :
    (interiorBitsFrom bound b i).Nodup := by
  rw [interiorBitsFrom]
  split
  · rename_i h
    refine List.nodup_cons.mpr ⟨?_, interiorBitsFrom_nodup hb bound (i + b)⟩
    intro hmem
    obtain ⟨k, hk, -⟩ := (mem_interiorBitsFrom hb bound (i + b) i).mp hmem
    have : i ≤ i + b + k * b := by omega
    omega
  · exact List.nodup_nil
termination_by bound - i
decreasing_by
  simp_wf
  omega

theorem mem_verifyByteSequenceCheckedBits {n b : Nat} (h2 : 2 ≤ n)
    (h64 : n < sizeTModulus) (hb : 1 ≤ b) (j : Nat) :
    j ∈ verifyByteSequenceCheckedBits n b ↔
      j = 0 ∨ j = n - 1 ∨ ∃ k, 1 ≤ k ∧ j = k * b ∧ j < n - 1 := by
  have h1 : 1 ≤ n := by omega
  have hbnd := loopBoundSizeT_eq_sub_one h1 h64
  unfold verifyByteSequenceCheckedBits
  rw [if_pos h1, if_pos h2, hbnd]
  simp only [List.mem_append, List.mem_singleton]
  rw [mem_interiorBitsFrom hb (n - 1) b j]
  constructor
  · rintro ((rfl | rfl) | ⟨k, rfl, hlt⟩)
    · exact Or.inl rfl
    · exact Or.inr (Or.inl rfl)
    · refine Or.inr (Or.inr ⟨k + 1, by omega, ?_, hlt⟩)
      have hs : (k + 1) * b = k * b + b := Nat.succ_mul k b
      omega
  · rintro (rfl | rfl | ⟨k, hk1, rfl, hlt⟩)
    · exact Or.inl (Or.inl rfl)
    · exact Or.inl (Or.inr rfl)
    · obtain ⟨k', rfl⟩ : ∃ k', k = k' + 1 := ⟨k - 1, by omega⟩
      refine Or.inr ⟨k', ?_, hlt⟩
      have hs : (k' + 1) * b = k' * b + b := Nat.succ_mul k' b
      omega

theorem verifyByteSequenceCheckedBits_nodup {n b : Nat} (h2 : 2 ≤ n)
    (h64 : n < sizeTModulus) (hb : 1 ≤ b) :
    (verifyByteSequenceCheckedBits n b).Nodup := by
  have h1 : 1 ≤ n := by omega
  have hbnd := loopBoundSizeT_eq_sub_one h1 h64
  unfold verifyByteSequenceCheckedBits
  rw [if_pos h1, if_pos h2, hbnd]
  have hint := interiorBitsFrom_nodup (b := b) (by omega) (n - 1) b
  simp only [List.singleton_append, List.cons_append, List.nil_append,
    List.nodup_cons]
  refine ⟨?_, ?_, hint⟩
  · simp only [List.mem_cons]
    rintro (h0 | hmem)
    · omega
    · obtain ⟨k, hk, -⟩ := (mem_interiorBitsFrom (by omega) (n - 1) b 0).mp hmem
      omega
  · intro hmem
    obtain ⟨k, -, hlt⟩ := (mem_interiorBitsFrom (by omega) (n - 1) b (n - 1)).mp hmem
    omega

theorem verifyByteSequenceCheckedBits_one (b : Nat) :
    verifyByteSequenceCheckedBits 1 b = [0] := by
  have hbnd : loopBoundSizeT 1 = 0 := by
    have hm := sizeTModulus_eq
    unfold loopBoundSizeT
    rw [hm]
  unfold verifyByteSequenceCheckedBits
  rw [hbnd, interiorBitsFrom]
  simp

theorem interiorBitsFromSizeT_eq_interiorBitsFrom {bound b : Nat} (hb : 0 < b)
    (hw : bound + b ≤ sizeTModulus) :
    ∀ fuel i, bound ≤ i + fuel →
      interiorBitsFromSizeT fuel bound b i = some (interiorBitsFrom bound b i) := by
  intro fuel
  induction fuel with
  | zero =>
    intro i hi
    have hge : ¬ i < bound := by omega
    simp only [interiorBitsFromSizeT]
    rw [if_neg hge, interiorBitsFrom, dif_neg (by tauto)]
  | succ k ih =>
    intro i hi
    by_cases hlt : i < bound
    · have hnw : sizeTStep i b = i + b := by
        unfold sizeTStep
        exact Nat.mod_eq_of_lt (by omega)
      simp only [interiorBitsFromSizeT]
      rw [if_pos hlt, hnw, ih (i + b) (by omega)]
      conv_rhs => rw [interiorBitsFrom]
      rw [dif_pos ⟨hb, hlt⟩]
    · simp only [interiorBitsFromSizeT]
      rw [if_neg hlt, interiorBitsFrom, dif_neg (by tauto)]

theorem interiorBitsFromSizeT_two_cycle (bound b x y : Nat) (hx : x < bound)
    (hy : y < bound) (hxy : sizeTStep x b = y) (hyx : sizeTStep y b = x) :
    ∀ fuel, interiorBitsFromSizeT fuel bound b x = none ∧
      interiorBitsFromSizeT fuel bound b y = none := by
  intro fuel
  induction fuel with
  | zero =>
    simp only [interiorBitsFromSizeT]
    rw [if_pos hx, if_pos hy]
    exact ⟨rfl, rfl⟩
  | succ k ih =>
    constructor
    · simp only [interiorBitsFromSizeT]
      rw [if_pos hx, hxy, ih.2]
    · simp only [interiorBitsFromSizeT]
      rw [if_pos hy, hyx, ih.1]

/-- Modelled from the spec: the fatal, non-recoverable contract violations of
the protected-memory primitive (spec §7): a raw write to a read-only page
(OS fault), a WritableGuard constructed against memory outside every registered
protected region, a read of an uninitialized lazy container, and a second run
of a one-time Initializer. -/
inductive Fatal where
  | writeFault
  | notInRegion
  | useBeforeInit
  | doubleInit
  deriving DecidableEq

/-- Modelled from the spec: the observable state of one
`ProtectedMemory<T, ConstructLazily>` container (`protected_memory.h` is not
among the available sources). `value` is the backing storage, `constructLazily`
the template parameter, `initialized` the lazy-construction flag (eager
containers are considered initialized after load), `writable` the OS-visible
page permission of the owning region, and `inRegion` whether the container was
placed in a registered protected region (`DEFINE_PROTECTED_DATA`). -/
structure ProtectedMemory (α : Type) where
  value : α
  constructLazily : Bool
  initialized : Bool
  writable : Bool
  inRegion : Bool
  deriving DecidableEq

/-- Modelled from the spec: an eagerly constructed container immediately after
process load — value built from its declared constructor arguments, considered
initialized, storage read-only. `reg` records whether the declaration used
`DEFINE_PROTECTED_DATA` (placed in the protected region) or was a plain local. -/
def mkEager {α : Type} (v : α) (reg : Bool) : ProtectedMemory α :=
  { value := v, constructLazily := false, initialized := true,
    writable := false, inRegion := reg }

/-- Modelled from the spec: a lazily constructed container immediately after
process load — storage holds uninitialized bytes (`uninit`), the `initialized`
flag is false, storage read-only, placed in the protected region. -/
def mkLazy {α : Type} (uninit : α) : ProtectedMemory α :=
  { value := uninit, constructLazily := true, initialized := false,
    writable := false, inRegion := true }

/-- Modelled from the spec: read access `operator*` — returns the contained
value; for lazy containers a read before initialization is a fatal contract
violation, checked explicitly. -/
def opStar {α : Type} (s : ProtectedMemory α) : Except Fatal α :=
  if s.constructLazily && !s.initialized then .error .useBeforeInit
  else .ok s.value

/-- Modelled from the spec: read access `operator->` — same explicit
initialization check as `operator*`. -/
def opArrow {α : Type} (s : ProtectedMemory α) : Except Fatal α :=
  if s.constructLazily && !s.initialized then .error .useBeforeInit
  else .ok s.value

/-- Modelled from the spec: one read access that leaves the container state
unchanged (reads take no lock and perform no mutation). -/
def readAccess {α : Type} (s : ProtectedMemory α) :
    Except Fatal (α × ProtectedMemory α) :=
  match opStar s with
  | .error e => .error e
  | .ok v => .ok (v, s)

/-- A sequence of `k + 1` read accesses threaded through the container state,
used to state stability of the value under any number of further reads. -/
def readIter {α : Type} : Nat → ProtectedMemory α → Except Fatal (α × ProtectedMemory α)
  | 0, s => readAccess s
  | k + 1, s =>
    match readAccess s with
    | .error e => .error e
    | .ok (_, s') => readIter k s'

/-- Modelled from the spec: construction of `AutoWritableMemory` — first the
registry check that the container's storage lies inside a registered protected
region (fatal otherwise, before any unprotect is attempted), then `Unprotect`
on the owning region. -/
def autoWritableConstruct {α : Type} (s : ProtectedMemory α) :
    Except Fatal (ProtectedMemory α) :=
  if s.inRegion then .ok { s with writable := true }
  else .error .notInRegion

/-- Modelled from the spec: destruction of `AutoWritableMemory` — `Protect` is
unconditionally restored on every exit path. -/
def autoWritableDestroy {α : Type} (s : ProtectedMemory α) : ProtectedMemory α :=
  { s with writable := false }

/-- Modelled from the spec: a raw write against the container's storage —
succeeds only while the owning region's pages are writable; against read-only
pages the OS raises a fault and the process terminates. -/
def rawWrite {α : Type} (s : ProtectedMemory α) (f : α → α) :
    Except Fatal (ProtectedMemory α) :=
  if s.writable then .ok { s with value := f s.value }
  else .error .writeFault

/-- Modelled from the spec: a complete `AutoWritableMemory` scope around one
mutation `f` of the contained value (construct the guard, write through
`GetProtectedDataPtr`, destroy the guard). -/
def autoWritableSet {α : Type} (s : ProtectedMemory α) (f : α → α) :
    Except Fatal (ProtectedMemory α) :=
  match autoWritableConstruct s with
  | .error e => .error e
  | .ok s1 =>
    match rawWrite s1 f with
    | .error e => .error e
    | .ok s2 => .ok (autoWritableDestroy s2)

/-- Modelled from the spec: `ProtectedMemoryInitializer` with explicit
constructor arguments — inside one WritableGuard scope: check that a lazy
container is not already initialized (fatal if it is), construct the value,
set `initialized = true`, restore protection. -/
def protectedMemoryInitializer {α : Type} (s : ProtectedMemory α) (v : α) :
    Except Fatal (ProtectedMemory α) :=
  match autoWritableConstruct s with
  | .error e => .error e
  | .ok s1 =>
    if s1.constructLazily && s1.initialized then .error .doubleInit
    else .ok (autoWritableDestroy { s1 with value := v, initialized := true })

/-- Modelled from the spec: the no-argument convenience form of
`ProtectedMemoryInitializer` — sets the default value only if the container is
not already set; an already-initialized container is left untouched. -/
def protectedMemoryInitializerDefault {α : Type} (s : ProtectedMemory α)
    (default : α) : Except Fatal (ProtectedMemory α) :=
  if s.initialized then .ok s
  else protectedMemoryInitializer s default

/-- The two-field record of the unit test: `struct Data { int16_t foo = 0;
int32_t bar = -1; }` with a `(foo, bar)` constructor. All values stored by the
tests fit comfortably in `int16_t` / `int32_t`, so the fields are embedded as
unbounded integers. -/
structure Data where
  foo : Int
  bar : Int
  deriving DecidableEq

/-- `Data()` — the defaulted field initializers of the source struct. -/
def Data.default : Data := { foo := 0, bar := -1 }

/-- The lazily constructed payload of the unit test:
`struct DataWithNonTrivialConstructor { explicit DataWithNonTrivialConstructor(int f); int foo; }`. -/
structure DataWithNonTrivialConstructor where
  foo : Int
  deriving DecidableEq

/-- `g_default_initialization`: `DEFINE_PROTECTED_DATA
ProtectedMemory<int, false> g_default_initialization;` — eager, value `int()`. -/
def gDefaultInitialization : ProtectedMemory Int := mkEager 0 true

/-- `g_with_initialization_declaration`: `DEFINE_PROTECTED_DATA
ProtectedMemory<Data, false> g_with_initialization_declaration(4, 3);`. -/
def gWithInitializationDeclaration : ProtectedMemory Data :=
  mkEager { foo := 4, bar := 3 } true

/-- `g_explicit_initialization`: eager `ProtectedMemory<int, false>`, value
`int()` after load. -/
def gExplicitInitialization : ProtectedMemory Int := mkEager 0 true

/-- `g_explicit_initialization_with_default_value`: eager
`ProtectedMemory<int, false>`, value `int()` after load. -/
def gExplicitInitializationWithDefaultValue : ProtectedMemory Int := mkEager 0 true

/-- C1: for every protected container whose region is read-only (outside any
WritableGuard), a raw write flipping any single bit of the backing bytes is
fatal; and for every object size (in bytes) and sampling increment, the
verification routine checks the first bit, the last bit, and every sampled
interior bit, each of which is such a fatal single-bit flip. -/
theorem c1_raw_bit_flip_fatal_and_coverage (size b : Nat)
    (s : ProtectedMemory (List Nat)) (hsize : 1 ≤ size)
    (h64 : 8 * size < sizeTModulus) (hb : 1 ≤ b) (hw : s.writable = false) :
    (∀ i, rawWrite s (fun v => flipBit v i) = .error .writeFault) ∧
    0 ∈ verifyByteSequenceCheckedBits (8 * size) b ∧
    (8 * size - 1) ∈ verifyByteSequenceCheckedBits (8 * size) b ∧
    (∀ k, 1 ≤ k → k * b < 8 * size - 1 →
      k * b ∈ verifyByteSequenceCheckedBits (8 * size) b) ∧
    (∀ i ∈ verifyByteSequenceCheckedBits (8 * size) b,
      rawWrite s (fun v => flipBit v i) = .error .writeFault) := by
  have hfatal : ∀ i, rawWrite s (fun v => flipBit v i) = .error .writeFault := by
    intro i
    unfold rawWrite
    rw [hw]
    simp
  have h2 : 2 ≤ 8 * size := by omega
  refine ⟨hfatal, ?_, ?_, ?_, fun i _ => hfatal i⟩
  · exact (mem_verifyByteSequenceCheckedBits h2 h64 hb 0).mpr (Or.inl rfl)
  · exact (mem_verifyByteSequenceCheckedBits h2 h64 hb _).mpr (Or.inr (Or.inl rfl))
  · intro k hk hlt
    exact (mem_verifyByteSequenceCheckedBits h2 h64 hb _).mpr
      (Or.inr (Or.inr ⟨k, hk, rfl, hlt⟩))

theorem c1_witness :
    1 ≤ 8 ∧ 8 * 8 < sizeTModulus ∧ 1 ≤ 3 ∧
      (mkEager (List.replicate 8 (0 : Nat)) true).writable = false ∧
      ((∀ i, rawWrite (mkEager (List.replicate 8 (0 : Nat)) true)
          (fun v => flipBit v i) = .error .writeFault) ∧
        0 ∈ verifyByteSequenceCheckedBits (8 * 8) 3 ∧
        (8 * 8 - 1) ∈ verifyByteSequenceCheckedBits (8 * 8) 3 ∧
        (∀ k, 1 ≤ k → k * 3 < 8 * 8 - 1 →
          k * 3 ∈ verifyByteSequenceCheckedBits (8 * 8) 3) ∧
        (∀ i ∈ verifyByteSequenceCheckedBits (8 * 8) 3,
          rawWrite (mkEager (List.replicate 8 (0 : Nat)) true)
            (fun v => flipBit v i) = .error .writeFault)) :=
  ⟨by norm_num, by norm_num [sizeTModulus], by norm_num, rfl,
    c1_raw_bit_flip_fatal_and_coverage 8 3 _ (by norm_num)
      (by norm_num [sizeTModulus]) (by norm_num) rfl⟩

/-- C2: for every lazily constructed container that has not been initialized,
read access through either `operator*` or `operator->` is fatal
(use-before-initialization), never a silent default value. -/
theorem c2_lazy_read_before_init_fatal {α : Type} (s : ProtectedMemory α)
    (hlazy : s.constructLazily = true) (hinit : s.initialized = false) :
    opStar s = .error .useBeforeInit ∧ opArrow s = .error .useBeforeInit := by
  unfold opStar opArrow
  rw [hlazy, hinit]
  exact ⟨rfl, rfl⟩

theorem c2_witness :
    (mkLazy (DataWithNonTrivialConstructor.mk 0)).constructLazily = true ∧
      (mkLazy (DataWithNonTrivialConstructor.mk 0)).initialized = false ∧
      (opStar (mkLazy (DataWithNonTrivialConstructor.mk 0)) =
          .error .useBeforeInit ∧
        opArrow (mkLazy (DataWithNonTrivialConstructor.mk 0)) =
          .error .useBeforeInit) :=
  ⟨rfl, rfl, c2_lazy_read_before_init_fatal _ rfl rfl⟩

/-- C3: for every lazily constructed container inside the protected region,
exactly one successful Initializer call with value `v` succeeds, after which
every read returns `v`, and the value stays `v` under any number of further
reads. -/
theorem c3_lazy_init_reads_stable {α : Type} (s : ProtectedMemory α) (v : α)
    (hlazy : s.constructLazily = true) (hinit : s.initialized = false)
    (hreg : s.inRegion = true) :
    ∃ s', protectedMemoryInitializer s v = .ok s' ∧ opStar s' = .ok v ∧
      ∀ k, readIter k s' = .ok (v, s') := by
  refine ⟨{ s with value := v, initialized := true, writable := false }, ?_, ?_, ?_⟩
  · simp [protectedMemoryInitializer, autoWritableConstruct, autoWritableDestroy,
      hreg, hlazy, hinit]
  · simp [opStar, hlazy]
  · have hread : readAccess { s with value := v, initialized := true, writable := false } = .ok (v, { s with value := v, initialized := true, writable := false }) := by
      simp [readAccess, opStar, hlazy]
    intro k
    induction k with
    | zero => simpa [readIter] using hread
    | succ k ih => simp [readIter, hread, ih]

theorem c3_witness :
    (mkLazy (DataWithNonTrivialConstructor.mk 0)).constructLazily = true ∧
      (mkLazy (DataWithNonTrivialConstructor.mk 0)).initialized = false ∧
      (mkLazy (DataWithNonTrivialConstructor.mk 0)).inRegion = true ∧
      (∃ s', protectedMemoryInitializer (mkLazy (DataWithNonTrivialConstructor.mk 0))
            (DataWithNonTrivialConstructor.mk 4) = .ok s' ∧
          opStar s' = .ok (DataWithNonTrivialConstructor.mk 4) ∧
          ∀ k, readIter k s' = .ok (DataWithNonTrivialConstructor.mk 4, s')) :=
  ⟨rfl, rfl, rfl, c3_lazy_init_reads_stable _ _ rfl rfl rfl⟩

/-- C4: for the eager `{foo:int16, bar:int32}` container declared with `(4, 3)`,
opening a WritableGuard and setting `foo = 5` succeeds and yields, once the
guard is destroyed, `foo == 5` and `bar == 3` (the mutation of `foo` leaves
`bar` unchanged), the mutated value is visible through read-only access, and
the storage is read-only again. -/
theorem c4_writable_guard_set_foo :
    autoWritableSet gWithInitializationDeclaration (fun (d : Data) => ({ d with foo := 5 } : Data)) = .ok { gWithInitializationDeclaration with value := { foo := 5, bar := 3 } } ∧
    ({ gWithInitializationDeclaration with value := { foo := 5, bar := 3 } } : ProtectedMemory Data).value.foo = 5 ∧
    ({ gWithInitializationDeclaration with value := { foo := 5, bar := 3 } } : ProtectedMemory Data).value.bar = gWithInitializationDeclaration.value.bar ∧
    opArrow ({ gWithInitializationDeclaration with value := { foo := 5, bar := 3 } } : ProtectedMemory Data) = .ok ({ foo := 5, bar := 3 } : Data) ∧
    ({ gWithInitializationDeclaration with value := { foo := 5, bar := 3 } } : ProtectedMemory Data).writable = false :=
  ⟨rfl, rfl, rfl, rfl, rfl⟩

/-- C5: constructing a WritableGuard (`AutoWritableMemory`) against a container
whose storage is not inside any registered protected region is fatal: the
registry check fails before any unprotect is attempted, and the whole guarded
mutation fails with the same fatal error. -/
theorem c5_guard_outside_region_fatal {α : Type} (s : ProtectedMemory α)
    (f : α → α) (h : s.inRegion = false) :
    autoWritableConstruct s = .error .notInRegion ∧
      autoWritableSet s f = .error .notInRegion := by
  have hc : autoWritableConstruct s = .error .notInRegion := by
    unfold autoWritableConstruct
    rw [h]
    simp
  exact ⟨hc, by simp [autoWritableSet, hc]⟩

theorem c5_witness :
    (mkEager Data.default false).inRegion = false ∧
      (autoWritableConstruct (mkEager Data.default false) = .error .notInRegion ∧
        autoWritableSet (mkEager Data.default false) id = .error .notInRegion) :=
  ⟨rfl, c5_guard_outside_region_fatal _ id rfl⟩

/-- C6: for every lazily constructed container, running the one-time
Initializer a second time after a successful first run is fatal
(double initialization), never silently ignored or overwritten. -/
theorem c6_double_init_fatal {α : Type} (s s' : ProtectedMemory α) (v w : α)
    (hlazy : s.constructLazily = true)
    (hfirst : protectedMemoryInitializer s v = .ok s') :
    protectedMemoryInitializer s' w = .error .doubleInit := by
  unfold protectedMemoryInitializer autoWritableConstruct autoWritableDestroy
    at hfirst ⊢
  by_cases hr : s.inRegion = true
  · simp only [hr, if_true] at hfirst
    cases hi : s.initialized with
    | true => simp [hi, hlazy] at hfirst
    | false =>
      simp only [hi, hlazy, Bool.and_false, Bool.true_and, if_false,
        Bool.false_eq_true, Except.ok.injEq] at hfirst
      subst hfirst
      simp [hlazy, hr]
  · simp [hr] at hfirst

theorem c6_witness :
    (mkLazy (DataWithNonTrivialConstructor.mk 0)).constructLazily = true ∧
      protectedMemoryInitializer (mkLazy (DataWithNonTrivialConstructor.mk 0)) (DataWithNonTrivialConstructor.mk 4) = .ok { value := DataWithNonTrivialConstructor.mk 4, constructLazily := true, initialized := true, writable := false, inRegion := true } ∧
      protectedMemoryInitializer ({ value := DataWithNonTrivialConstructor.mk 4, constructLazily := true, initialized := true, writable := false, inRegion := true } : ProtectedMemory DataWithNonTrivialConstructor) (DataWithNonTrivialConstructor.mk 7) = .error .doubleInit :=
  ⟨rfl, rfl, c6_double_init_fatal (mkLazy (DataWithNonTrivialConstructor.mk 0)) _ (DataWithNonTrivialConstructor.mk 4) (DataWithNonTrivialConstructor.mk 7) rfl rfl⟩

/-- C7: immediately after load and before any Initializer runs, every eagerly
constructed container reads back exactly its declared construction arguments:
`int()` (that is, 0) for the default-constructed `g_default_initialization`,
and `{foo == 4, bar == 3}` for `g_with_initialization_declaration(4, 3)`. -/
theorem c7_eager_reads_construction_args :
    opStar gDefaultInitialization = .ok 0 ∧
      opArrow gWithInitializationDeclaration = .ok { foo := 4, bar := 3 } ∧
      gWithInitializationDeclaration.value.foo = 4 ∧
      gWithInitializationDeclaration.value.bar = 3 :=
  ⟨rfl, rfl, rfl, rfl⟩

/-- C8: a `ProtectedMemoryInitializer` with an explicit value 4 on the eager
container `g_explicit_initialization` overwrites the default-constructed value
so subsequent reads return 4; the no-argument convenience form on the eager
default-constructed `g_explicit_initialization_with_default_value` leaves the
value equal to the default `int()`. -/
theorem c8_eager_initializer_overwrite_and_default :
    protectedMemoryInitializer gExplicitInitialization 4 = .ok { gExplicitInitialization with value := 4 } ∧
      opStar ({ gExplicitInitialization with value := 4 } : ProtectedMemory Int) = .ok 4 ∧
      protectedMemoryInitializerDefault gExplicitInitializationWithDefaultValue 0 = .ok gExplicitInitializationWithDefaultValue ∧
      opStar gExplicitInitializationWithDefaultValue = .ok 0 :=
  ⟨rfl, rfl, rfl, rfl⟩

/-- C9 counterexample: at `number_of_bits = 2^64 - 8 = 8 * (2^61 - 1)` (a
genuine `sizeof(T) * CHAR_BIT` shape) and `bit_increment = 2^63`, both inside
the claim's preconditions `number_of_bits >= 1`, `bit_increment >= 1`, the
interior sampling loop does not terminate: the `size_t` index steps
`2^63 -> 0 -> 2^63 -> ...`, both values strictly below the loop bound, so the
wrapped loop never exits. -/
theorem c9_counterexample :
    8 * (2 ^ 61 - 1) = 2 ^ 64 - 8 ∧ 1 ≤ 2 ^ 64 - 8 ∧ 1 ≤ (2 : Nat) ^ 63 ∧
      loopBoundSizeT (2 ^ 64 - 8) = 2 ^ 64 - 9 ∧
      interiorLoopDivergesSizeT (loopBoundSizeT (2 ^ 64 - 8)) (2 ^ 63) (2 ^ 63) :=
  ⟨by norm_num, by norm_num, by norm_num, by decide,
    fun fuel =>
      (interiorBitsFromSizeT_two_cycle (loopBoundSizeT (2 ^ 64 - 8)) (2 ^ 63)
        (2 ^ 63) 0 (by decide) (by decide) (by decide) (by decide) fuel).1⟩

/-- C9 (amended): for every call with `number_of_bits = sizeof(T) * CHAR_BIT`
for some object size `size >= 1` and `bit_increment >= 1` such that the
`size_t` loop index never wraps (`(number_of_bits - 1) + bit_increment <=
2^64`, which holds for every call through `VerifyInstanceIsNotWriteable` with
its default increment 3), the interior sampling loop terminates — the faithful
wrapping loop exits within `number_of_bits - 1` iterations with exactly the
indices of the non-wrapping model — and every bit index passed to
`check_bit_not_writeable` is strictly below `number_of_bits`, so the derived
byte index stays inside the object's `size` bytes; and the loop bound
`number_of_bits - 1` computed in unsigned `size_t` arithmetic wraps to
`2^64 - 1` for a zero-length sequence, which is why `number_of_bits >= 1` is
essential. -/
theorem c9_checked_bits_in_bounds (size b : Nat) (hs : 1 ≤ size)
    (h64 : 8 * size < sizeTModulus) (hb : 1 ≤ b)
    (hw : loopBoundSizeT (8 * size) + b ≤ sizeTModulus) :
    interiorBitsFromSizeT (loopBoundSizeT (8 * size)) (loopBoundSizeT (8 * size)) b b
        = some (interiorBitsFrom (loopBoundSizeT (8 * size)) b b) ∧
      (∀ i ∈ verifyByteSequenceCheckedBits (8 * size) b,
        i < 8 * size ∧ i / charBit < size) ∧
      loopBoundSizeT 0 = sizeTModulus - 1 := by
  refine ⟨?_, ?_, loopBoundSizeT_zero⟩
  · exact interiorBitsFromSizeT_eq_interiorBitsFrom (by omega) hw
      (loopBoundSizeT (8 * size)) b (by omega)
  · intro i hi
    have h2 : 2 ≤ 8 * size := by omega
    have hib : i < 8 * size := by
      rcases (mem_verifyByteSequenceCheckedBits h2 h64 hb i).mp hi with
        rfl | rfl | ⟨k, hk, rfl, hlt⟩
      · omega
      · omega
      · omega
    refine ⟨hib, ?_⟩
    have hc : charBit = 8 := rfl
    rw [hc]
    omega

theorem c9_witness :
    1 ≤ 8 ∧ 8 * 8 < sizeTModulus ∧ 1 ≤ 3 ∧
      loopBoundSizeT (8 * 8) + 3 ≤ sizeTModulus ∧
      (interiorBitsFromSizeT (loopBoundSizeT (8 * 8)) (loopBoundSizeT (8 * 8)) 3 3
          = some (interiorBitsFrom (loopBoundSizeT (8 * 8)) 3 3) ∧
        (∀ i ∈ verifyByteSequenceCheckedBits (8 * 8) 3,
          i < 8 * 8 ∧ i / charBit < 8) ∧
        loopBoundSizeT 0 = sizeTModulus - 1) :=
  ⟨by norm_num, by norm_num [sizeTModulus], by norm_num, by decide,
    c9_checked_bits_in_bounds 8 3 (by norm_num) (by norm_num [sizeTModulus])
      (by norm_num) (by decide)⟩

/-- C10 counterexample: at `number_of_bits = 2^64 - 8` and
`bit_increment = 2^63`, inside the claim's preconditions `n >= 2`, `b >= 1`,
the interior loop's `size_t` index cycles `2^63 -> 0 -> 2^63 -> ...` with both
values strictly below the bound, so index 0 (and `2^63`) is re-checked
infinitely often — the checked bits are not the claimed duplicate-free set and
the loop never terminates. -/
theorem c10_counterexample :
    2 ≤ 2 ^ 64 - 8 ∧ 1 ≤ (2 : Nat) ^ 63 ∧
      (2 : Nat) ^ 63 < loopBoundSizeT (2 ^ 64 - 8) ∧
      (0 : Nat) < loopBoundSizeT (2 ^ 64 - 8) ∧
      sizeTStep (2 ^ 63) (2 ^ 63) = 0 ∧ sizeTStep 0 (2 ^ 63) = 2 ^ 63 ∧
      interiorLoopDivergesSizeT (loopBoundSizeT (2 ^ 64 - 8)) (2 ^ 63) 0 :=
  ⟨by norm_num, by norm_num, by decide, by decide, by decide, by decide,
    fun fuel =>
      (interiorBitsFromSizeT_two_cycle (loopBoundSizeT (2 ^ 64 - 8)) (2 ^ 63)
        (2 ^ 63) 0 (by decide) (by decide) (by decide) (by decide) fuel).2⟩

/-- C10 (amended): for `number_of_bits = n >= 2` and `bit_increment = b >= 1`
such that the `size_t` loop index never wraps (`(n - 1) + b <= 2^64`), the
interior loop terminates — the faithful wrapping loop exits with exactly the
indices of the non-wrapping model — and the bit indices checked by
`VerifyByteSequenceIsNotWriteable` are exactly `{0, n-1}` together with every
positive multiple of `b` strictly below `n - 1`, each checked exactly once;
for `n = 1` only bit index 0 is checked. -/
theorem c10_checked_bits_exact (n b : Nat) (h2 : 2 ≤ n)
    (h64 : n < sizeTModulus) (hb : 1 ≤ b)
    (hw : loopBoundSizeT n + b ≤ sizeTModulus) :
    interiorBitsFromSizeT (loopBoundSizeT n) (loopBoundSizeT n) b b
        = some (interiorBitsFrom (loopBoundSizeT n) b b) ∧
      (∀ j, j ∈ verifyByteSequenceCheckedBits n b ↔
        j = 0 ∨ j = n - 1 ∨ ∃ k, 1 ≤ k ∧ j = k * b ∧ j < n - 1) ∧
      (verifyByteSequenceCheckedBits n b).Nodup ∧
      ∀ c, verifyByteSequenceCheckedBits 1 c = [0] :=
  ⟨interiorBitsFromSizeT_eq_interiorBitsFrom (by omega) hw
      (loopBoundSizeT n) b (by omega),
    fun j => mem_verifyByteSequenceCheckedBits h2 h64 hb j,
    verifyByteSequenceCheckedBits_nodup h2 h64 hb,
    verifyByteSequenceCheckedBits_one⟩

theorem c10_witness :
    2 ≤ 10 ∧ 10 < sizeTModulus ∧ 1 ≤ 3 ∧
      loopBoundSizeT 10 + 3 ≤ sizeTModulus ∧
      (interiorBitsFromSizeT (loopBoundSizeT 10) (loopBoundSizeT 10) 3 3
          = some (interiorBitsFrom (loopBoundSizeT 10) 3 3) ∧
        (∀ j, j ∈ verifyByteSequenceCheckedBits 10 3 ↔
          j = 0 ∨ j = 10 - 1 ∨ ∃ k, 1 ≤ k ∧ j = k * 3 ∧ j < 10 - 1) ∧
        (verifyByteSequenceCheckedBits 10 3).Nodup ∧
        ∀ c, verifyByteSequenceCheckedBits 1 c = [0]) :=
  ⟨by norm_num, by norm_num [sizeTModulus], by norm_num, by decide,
    c10_checked_bits_exact 10 3 (by norm_num) (by norm_num [sizeTModulus])
      (by norm_num) (by decide)⟩
